import Mathlib

/-!
Verification of the Veil closed-loop WAF backend against its specification.

The Python sources under src/backend are shallowly embedded below:
pure functions become Lean functions on `List Char` / `String` / `ℚ`;
Python floats are modelled as rationals; dictionaries read with `.get`
are modelled either as structures (when the keys are fixed) or as
association lists (when a missing key matters); network calls are
modelled as explicit outcome values.  String operations (`lower`,
`strip`, `urllib.parse.unquote`) are modelled on the ASCII fragment,
which covers every payload appearing in the claims.
-/

namespace Veil

/-! ## Basic character and string helpers (ASCII fragment) -/

/-- ASCII whitespace, as matched by the Python regex class backslash-s
and by `str.strip` on ASCII text: space, tab, newline, CR, FF, VT. -/
def isPyWS (c : Char) : Bool :=
  c.toNat = 32 || c.toNat = 9 || c.toNat = 10 || c.toNat = 13 || c.toNat = 12 || c.toNat = 11

/-- ASCII fragment of Python `str.lower` on one character: A-Z map to
a-z, everything else is unchanged.  This is exactly `Char.toLower`. -/
def pyLowerChar (c : Char) : Char := c.toLower

def pyLower (l : List Char) : List Char := l.map pyLowerChar

/-- Drop trailing ASCII whitespace. -/
def dropTrailWS (l : List Char) : List Char :=
  (l.reverse.dropWhile isPyWS).reverse

/-- Python `str.strip` (ASCII whitespace): drop leading and trailing
whitespace. -/
def pyStrip (l : List Char) : List Char :=
  dropTrailWS (l.dropWhile isPyWS)

def pyLowerStr (s : String) : String := ⟨pyLower s.data⟩

def pyStripStr (s : String) : String := ⟨pyStrip s.data⟩

/-- Value of an ASCII hex digit. -/
def hexDigit (c : Char) : Option ℕ :=
  if 48 ≤ c.toNat ∧ c.toNat ≤ 57 then some (c.toNat - 48)
  else if 97 ≤ c.toNat ∧ c.toNat ≤ 102 then some (c.toNat - 87)
  else if 65 ≤ c.toNat ∧ c.toNat ≤ 70 then some (c.toNat - 55)
  else none

/-- Fuelled scanner behind `pyUnquote`; the fuel (at least the length
of the list) only makes the recursion structural, so that the kernel
can evaluate it. -/
def pyUnquoteGo : ℕ → List Char → List Char
  | 0, l => l
  | _ + 1, [] => []
  | fuel + 1, c :: rest =>
      if c = '%' then
        match rest with
        | h1 :: h2 :: rest2 =>
            match hexDigit h1, hexDigit h2 with
            | some a, some b =>
                if 16 * a + b < 128 then Char.ofNat (16 * a + b) :: pyUnquoteGo fuel rest2
                else c :: pyUnquoteGo fuel rest
            | _, _ => c :: pyUnquoteGo fuel rest
        | _ => c :: pyUnquoteGo fuel rest
      else c :: pyUnquoteGo fuel rest

/-- ASCII fragment of `urllib.parse.unquote`: every percent escape of
an ASCII byte is decoded; an invalid escape is copied through with the
scan resuming after the percent sign, as in Python.  (Python
additionally UTF-8-decodes runs of non-ASCII bytes; escapes of bytes
of 128 and above are left untouched here, which is the only deviation
and is never exercised by the claims.) -/
def pyUnquote (l : List Char) : List Char := pyUnquoteGo l.length l

/-- The decode loop of `_normalise_payload` in peek.py:
`for _ in range(3): decoded = unquote(p); if decoded == p: break; p = decoded`. -/
def decode3 (p : List Char) : List Char :=
  if pyUnquote p = p then p
  else if pyUnquote (pyUnquote p) = pyUnquote p then pyUnquote p
  else pyUnquote (pyUnquote (pyUnquote p))

/-- One-pass whitespace collapsing; the flag records whether the scan
is inside a whitespace run whose single replacement space has already
been emitted. -/
def collapseRun : Bool → List Char → List Char
  | _, [] => []
  | skipping, c :: rest =>
      if isPyWS c then
        if skipping then collapseRun true rest
        else ' ' :: collapseRun true rest
      else c :: collapseRun false rest

/-- `re.sub(r"\s+", " ", p)` on ASCII text: every maximal run of
whitespace becomes a single space. -/
def collapseWS (l : List Char) : List Char := collapseRun false l

/-- `_normalise_payload` in peek.py on character lists: lowercase and
strip, then URL-decode up to three layers until stable, then collapse
whitespace runs to single spaces. -/
def normalisePayloadL (payload : List Char) : List Char :=
  collapseWS (decode3 (pyStrip (pyLower payload)))

/-- `_normalise_payload` in peek.py. -/
def _normalise_payload (s : String) : String := ⟨normalisePayloadL s.data⟩

/-- Whether `needle` is a prefix of `hay` (character lists). -/
def startsWithL : List Char → List Char → Bool
  | [], _ => true
  | _ :: _, [] => false
  | a :: as, b :: bs => a == b && startsWithL as bs

/-- Whether `needle` occurs as a contiguous substring of `hay`:
Python `needle in hay`. -/
def infixL (needle : List Char) : List Char → Bool
  | [] => startsWithL needle []
  | b :: bs => startsWithL needle (b :: bs) || infixL needle bs

/-- Python `needle in hay` on strings. -/
def pyContains (hay needle : String) : Bool := infixL needle.data hay.data

/-! ## A small regular-expression engine
(services/regex_classifier.py compiles Python `re` patterns; the
fragment of `re` they use is implemented here: literals, character
classes, alternation, repetition, the dot, word boundaries, the end
anchor and one negative lookahead, with per-pattern case
insensitivity realised by lowering pattern and text.) -/

/-- The apostrophe character. -/
def apos : Char := Char.ofNat 39

/-- The backtick character. -/
def grave : Char := Char.ofNat 96

/-- Python regex backslash-w on ASCII: letters, digits, underscore. -/
def isWordChar (c : Char) : Bool :=
  (48 ≤ c.toNat && c.toNat ≤ 57) || (65 ≤ c.toNat && c.toNat ≤ 90) ||
    (97 ≤ c.toNat && c.toNat ≤ 122) || c == '_'

/-- One atom of a character class. -/
inductive CItem where
  | ch (c : Char)
  | range (lo hi : Char)
  | digit
  | word
  | space
deriving DecidableEq

def citemMatch (i : CItem) (c : Char) : Bool :=
  match i with
  | CItem.ch d => c == d
  | CItem.range lo hi => lo.toNat ≤ c.toNat && c.toNat ≤ hi.toNat
  | CItem.digit => 48 ≤ c.toNat && c.toNat ≤ 57
  | CItem.word => isWordChar c
  | CItem.space => isPyWS c

/-- Syntax of the regex fragment used by the Stage 0 rules. -/
inductive RE where
  | eps
  | ch (c : Char)
  | cls (neg : Bool) (items : List CItem)
  | anyc
  | cat (a b : RE)
  | alt (a b : RE)
  | star (a : RE)
  | wb
  | eol
  | nla (a : RE)
deriving DecidableEq

/-- Number of syntax nodes, used to bound the matcher fuel. -/
def reSize : RE → ℕ
  | RE.eps => 1
  | RE.ch _ => 1
  | RE.cls _ _ => 1
  | RE.anyc => 1
  | RE.wb => 1
  | RE.eol => 1
  | RE.cat a b => reSize a + reSize b + 1
  | RE.alt a b => reSize a + reSize b + 1
  | RE.star a => reSize a + 1
  | RE.nla a => reSize a + 1

/-- Word boundary test between the previous character and the rest of
the input. -/
def isBoundary (prev : Option Char) (s : List Char) : Bool :=
  (match prev with | none => false | some c => isWordChar c) !=
    (match s with | [] => false | c :: _ => isWordChar c)

/-- Backtracking matcher in continuation style.  `prev` is the
character preceding the current position (for word boundaries), and
the continuation receives the updated position.  The fuel only bounds
the recursion; `reSearch` supplies enough for any match. -/
def reM : ℕ → RE → Option Char → List Char → (Option Char → List Char → Bool) → Bool
  | 0, _, _, _, _ => false
  | fuel + 1, r, prev, s, k =>
      match r with
      | RE.eps => k prev s
      | RE.ch c =>
          match s with
          | [] => false
          | a :: rest => c == a && k (some a) rest
      | RE.cls neg items =>
          match s with
          | [] => false
          | a :: rest => (neg != items.any (fun i => citemMatch i a)) && k (some a) rest
      | RE.anyc =>
          match s with
          | [] => false
          | a :: rest => !(a == '\n') && k (some a) rest
      | RE.cat r1 r2 => reM fuel r1 prev s (fun p2 s2 => reM fuel r2 p2 s2 k)
      | RE.alt r1 r2 => reM fuel r1 prev s k || reM fuel r2 prev s k
      | RE.star r1 =>
          k prev s ||
            reM fuel r1 prev s (fun p2 s2 =>
              if s2.length < s.length then reM fuel (RE.star r1) p2 s2 k else false)
      | RE.wb => isBoundary prev s && k prev s
      | RE.eol => (s.isEmpty || s == ['\n']) && k prev s
      | RE.nla r1 => !(reM fuel r1 prev s (fun _ _ => true)) && k prev s

/-- All starting positions of the text, with the preceding character. -/
def suffixesFrom (prev : Option Char) : List Char → List (Option Char × List Char)
  | [] => [(prev, [])]
  | c :: rest => (prev, c :: rest) :: suffixesFrom (some c) rest

/-- A compiled pattern: the regex plus its case-insensitivity flag
(the `(?i)` prefix in the source). -/
structure RePat where
  ci : Bool
  re : RE
deriving DecidableEq

/-- `pattern.search(text) is not None`: a match starting at some
position.  Case-insensitive patterns are written in lowercase and
matched against the lowered text, mirroring `(?i)` on ASCII. -/
def reSearch (p : RePat) (text : List Char) : Bool :=
  let t := if p.ci then pyLower text else text
  (suffixesFrom none t).any (fun pos =>
    reM ((reSize p.re + 2) * (t.length + 2)) p.re pos.1 pos.2 (fun _ _ => true))

/-! ## Stage 0 pattern set (services/regex_classifier.py)

Each Python pattern is transcribed node for node; case-insensitive
patterns are written with lowercase literals (see `reSearch`). -/

/-- Concatenation of a pattern list. -/
def reCat (rs : List RE) : RE := rs.foldr RE.cat RE.eps

/-- Alternation of a pattern list (empty list matches nothing). -/
def reAlts : List RE → RE
  | [] => RE.cls false []
  | [r] => r
  | r :: rs => RE.alt r (reAlts rs)

/-- A literal string. -/
def reLit (s : String) : RE := reCat (s.data.map RE.ch)

/-- Alternation of literal words. -/
def litAlt (ws : List String) : RE := reAlts (ws.map reLit)

def wsCls : RE := RE.cls false [CItem.space]
def wsStar : RE := RE.star wsCls
def rePlus (r : RE) : RE := RE.cat r (RE.star r)
def wsPlus : RE := rePlus wsCls
def reOpt (r : RE) : RE := RE.alt r RE.eps
def dPlus : RE := rePlus (RE.cls false [CItem.digit])
def wPlus : RE := rePlus (RE.cls false [CItem.word])
def quoteCls : RE := RE.cls false [CItem.ch apos, CItem.ch '"']
def notCls (c : Char) : RE := RE.star (RE.cls true [CItem.ch c])

def SQLI_PATTERNS : List RePat :=
  [⟨true, reCat [RE.wb, reAlts
      [reCat [reLit "union", wsPlus, reOpt (reCat [reLit "all", wsPlus]), reLit "select"],
       reCat [reLit "select", wsPlus, RE.star RE.anyc, wsPlus, reLit "from"],
       reCat [reLit "insert", wsPlus, reLit "into"],
       reCat [reLit "update", wsPlus, RE.star RE.anyc, wsPlus, reLit "set"],
       reCat [reLit "delete", wsPlus, reLit "from"],
       reCat [reLit "drop", wsPlus, litAlt ["table", "database"]],
       reCat [reLit "alter", wsPlus, reLit "table"]], RE.wb]⟩,
   ⟨true, RE.alt
      (reCat [RE.wb, reLit "or", RE.wb, wsPlus, reOpt quoteCls, dPlus, reOpt quoteCls,
        wsStar, reLit "=", wsStar, reOpt quoteCls, dPlus])
      (reCat [RE.ch apos, wsStar, reLit "or", wsStar, RE.ch apos,
        RE.star (RE.cls true [CItem.ch apos]), RE.ch apos, wsStar, reLit "=", wsStar,
        RE.ch apos])⟩,
   ⟨true, reCat [reLit ";", wsStar,
      litAlt ["drop", "alter", "create", "truncate", "exec", "execute"], RE.wb]⟩,
   ⟨true, reCat [RE.wb,
      reAlts [reLit "sleep", reLit "benchmark", reCat [reLit "waitfor", wsPlus, reLit "delay"],
        reLit "pg_sleep"], wsStar, reLit "("]⟩,
   ⟨true, reAlts
      [reCat [RE.ch apos, RE.star (RE.alt wsCls (reLit "%20")), reLit "--"],
       reCat [RE.wb, reLit "--", wsStar, RE.eol],
       reCat [reLit "#", wsStar, RE.eol]]⟩,
   ⟨true, reCat [RE.wb, reLit "having", RE.wb, wsPlus, dPlus, wsStar, reLit "=", wsStar, dPlus]⟩,
   ⟨true, reAlts [reLit "load_file",
      reCat [reLit "into", wsPlus, litAlt ["out", "dump"], reLit "file"],
      reLit "information_schema"]⟩]

def XSS_PATTERNS : List RePat :=
  [⟨true, RE.alt
      (reCat [reLit "<", wsStar, reLit "script", RE.wb, notCls '>', reLit ">"])
      (reCat [reLit "<", wsStar, reLit "/", wsStar, reLit "script", wsStar, reLit ">"])⟩,
   ⟨true, reCat [RE.wb, reLit "on",
      litAlt ["error", "load", "click", "mouse", "focus", "blur", "submit", "change", "key"],
      wsStar, reLit "="]⟩,
   ⟨true, reCat [reLit "javascript", wsStar, reLit ":"]⟩,
   ⟨true, reCat [reLit "<", wsStar,
      litAlt ["img", "svg", "iframe", "embed", "object", "video", "audio", "source", "body",
        "input", "form", "details", "marquee"], RE.wb, notCls '>',
      RE.alt (reCat [reLit "on", wPlus, wsStar, reLit "="])
        (reCat [reLit "src", wsStar, reLit "=", wsStar, reOpt quoteCls, reLit "javascript"])]⟩,
   ⟨true, RE.alt
      (reCat [reLit "document", wsStar, reLit ".", wsStar,
        litAlt ["cookie", "location", "write", "domain"]])
      (reCat [reLit "window", wsStar, reLit ".", wsStar, reLit "location"])⟩,
   ⟨true, reCat [reLit "<", wsStar, reLit "svg", notCls '>', RE.wb, reLit "onload", wsStar,
      reLit "="]⟩,
   ⟨true, reAlts [reCat [reLit "alert", wsStar, reLit "("],
      reCat [reLit "prompt", wsStar, reLit "("],
      reCat [reLit "confirm", wsStar, reLit "("],
      reCat [reLit "eval", wsStar, reLit "("]]⟩,
   ⟨true, reAlts [reLit "fromcharcode", reLit "string.fromcharcode",
      reCat [reLit "atob", wsStar, reLit "("]]⟩,
   ⟨true, RE.alt (reCat [reLit "fetch", wsStar, reLit "(", wsStar, quoteCls])
      (reLit "xmlhttprequest")⟩]

def PATH_TRAVERSAL_PATTERNS : List RePat :=
  [⟨false, reAlts [reLit "../", reLit "..\\", reLit "%2e%2e%2f", reLit "%2e%2e/",
      reLit "..%2f", reLit "%2e%2e%5c"]⟩,
   ⟨true, RE.alt
      (reCat [reLit "/etc/", litAlt ["passwd", "shadow", "hosts", "issue"]])
      (reCat [reLit "/proc/", litAlt ["self", "version", "cmdline"]])⟩,
   ⟨true, reAlts [reLit "..;/", reLit "..%00", reLit "%00."]⟩,
   ⟨true, reAlts [reLit "c:\\\\windows", reLit "c:/windows", reLit "boot.ini",
      reLit "win.ini"]⟩]

def COMMAND_INJECTION_PATTERNS : List RePat :=
  [⟨false, reCat [reLit ";", wsStar,
      litAlt ["ls", "cat", "whoami", "id", "uname", "pwd", "curl", "wget", "nc", "ncat",
        "bash", "sh", "cmd"], RE.wb]⟩,
   ⟨false, reCat [reLit "|", wsStar,
      litAlt ["ls", "cat", "whoami", "id", "uname", "pwd", "curl", "wget", "nc", "bash",
        "sh", "cmd"], RE.wb]⟩,
   ⟨false, RE.alt
      (reCat [RE.ch grave, RE.star (RE.cls true [CItem.ch grave]), RE.ch grave])
      (reCat [reLit "$(", notCls ')', reLit ")"])⟩,
   ⟨false, reCat [RE.alt (reLit "%0a") (RE.ch '\n'), wsStar,
      litAlt ["ls", "cat", "whoami", "id", "curl", "wget"]]⟩,
   ⟨true, reCat [RE.wb,
      litAlt ["eval", "exec", "system", "passthru", "popen", "proc_open", "shell_exec"],
      wsStar, reLit "("]⟩,
   ⟨true, RE.alt (reCat [RE.wb, reLit "__import__", wsStar, reLit "("])
      (reLit "runtime.exec")⟩,
   ⟨false, reCat [RE.alt (reLit "%26%26") (reLit "&&"), wsStar,
      litAlt ["whoami", "id", "cat", "ls", "curl", "wget"]]⟩]

def SSRF_PATTERNS : List RePat :=
  [⟨true, reAlts [reLit "169.254.169.254", reLit "metadata.google", reLit "100.100.100.200"]⟩,
   ⟨true, reAlts [reLit "127.0.0.1", reLit "0.0.0.0", reLit "localhost", reLit "0x7f000001",
      reLit "[::1]", reLit "[0:0:0:0:0:0:0:1]"]⟩,
   ⟨true, reAlts [reLit "file://", reLit "gopher://", reLit "dict://", reLit "ftp://127",
      reLit "ftp://localhost"]⟩,
   ⟨true, reAlts [reCat [reLit ".internal", RE.wb], reCat [reLit ".local", RE.wb],
      reCat [reLit ".corp", RE.wb], reCat [reLit ".home", RE.wb]]⟩,
   ⟨true, RE.alt
      (reCat [reLit "http://", rePlus (RE.cls false [CItem.range '0' '9']), RE.wb,
        RE.nla (reLit "/")])
      (reLit "http://0x")⟩]

def XXE_PATTERNS : List RePat :=
  [⟨true, RE.alt
      (reCat [reLit "<!doctype", notCls '>', reLit "["])
      (reCat [reLit "<!entity", wsPlus, wPlus, wsPlus, reLit "system"])⟩,
   ⟨true, RE.alt (reCat [reLit "system", wsPlus, quoteCls, reLit "file://"])
      (reCat [reLit "system", wsPlus, quoteCls, reLit "http://"])⟩,
   ⟨true, reCat [reLit "&", wPlus, reLit ";", RE.star RE.anyc, reLit "<!entity"]⟩]

def HEADER_INJECTION_PATTERNS : List RePat :=
  [⟨false, reAlts [reLit "%0d%0a", reLit "%0d", reLit "%0a", reLit "\\r\\n"]⟩,
   ⟨true, RE.alt (reCat [reLit "set-cookie", wsStar, reLit ":"])
      (reCat [reLit "location", wsStar, reLit ":", RE.star RE.anyc, reLit "%0d%0a"])⟩]

def AUTH_BYPASS_PATTERNS : List RePat :=
  [⟨true, reLit "eyjhbgcioijub25lii"⟩,
   ⟨true, RE.alt
      (reCat [reLit "admin", reOpt quoteCls, wsStar, reLit ":", wsStar, reOpt quoteCls,
        reLit "true"])
      (reCat [reLit "role", reOpt quoteCls, wsStar, reLit ":", wsStar, reOpt quoteCls,
        reLit "admin"])⟩,
   ⟨true, RE.alt
      (reCat [RE.wb, reLit "isadmin", RE.wb, wsStar, reLit "=", wsStar, reLit "true"])
      (reCat [RE.wb, reLit "role", RE.wb, wsStar, reLit "=", wsStar, reLit "admin"])⟩]

def ENCODING_EVASION_PATTERNS : List RePat :=
  [⟨false, reCat [reLit "%25", litAlt ["2e", "2f", "5c", "3c", "3e", "22", "27"]]⟩,
   ⟨true, reAlts [reLit "\\u003c", reLit "\\u003e", reLit "\\x3c", reLit "\\x3e"]⟩,
   ⟨false, RE.alt (reLit "%00") (reLit "%c0%ae")⟩]

/-- One row of the RULES table in regex_classifier.py.  The base
confidence is stored in hundredths (0.92 is 92), so that the float
arithmetic of the classifier can be carried out exactly over the
integers; `baseConfidence` recovers the rational value. -/
structure RuleGroup where
  attack_type : String
  patterns : List RePat
  base100 : ℕ
deriving DecidableEq

/-- The base confidence of a rule group as a rational. -/
def baseConfidence (g : RuleGroup) : ℚ := mkRat g.base100 100

/-- RULES in regex_classifier.py. -/
def RULES : List RuleGroup :=
  [⟨"sqli", SQLI_PATTERNS, 92⟩,
   ⟨"xss", XSS_PATTERNS, 90⟩,
   ⟨"path_traversal", PATH_TRAVERSAL_PATTERNS, 88⟩,
   ⟨"command_injection", COMMAND_INJECTION_PATTERNS, 91⟩,
   ⟨"ssrf", SSRF_PATTERNS, 85⟩,
   ⟨"xxe", XXE_PATTERNS, 89⟩,
   ⟨"header_injection", HEADER_INJECTION_PATTERNS, 82⟩,
   ⟨"auth_bypass", AUTH_BYPASS_PATTERNS, 87⟩,
   ⟨"encoding_evasion", ENCODING_EVASION_PATTERNS, 80⟩]

/-! ## Stage 0 classifier (services/regex_classifier.py, classify) -/

/-- A classifier verdict, restricted to the fields the pipeline reads
(the diagnostic reason and the wall-clock response time are not
modelled). -/
structure Verdict where
  classification : String
  confidence : ℚ
  attack_type : String
  classifier : String
deriving DecidableEq

/-- `search_text = f"{user_message} {decoded}"` with
`decoded = unquote(unquote(user_message))`. -/
def searchTextOf (msg : String) : List Char :=
  msg.data ++ (' ' :: pyUnquote (pyUnquote msg.data))

/-- Number of patterns of a rule group matching the search text
(hit_count in the classify loop). -/
def ruleHits (g : RuleGroup) (st : List Char) : ℕ :=
  g.patterns.countP (fun p => reSearch p st)

/-- An entry of the matches list built by classify. -/
structure MatchEntry where
  attack_type : String
  confidence : ℚ
  hits : ℕ
deriving DecidableEq

/-- The confidence of a match:
`min(base_confidence + (hit_count - 1) * 0.03, 0.99)`, computed
exactly in hundredths. -/
def clampConf (base100 hits : ℕ) : ℚ := mkRat (min (base100 + (hits - 1) * 3) 99 : ℕ) 100

/-- The matches list of classify. -/
def matchesOf (st : List Char) : List MatchEntry :=
  RULES.filterMap (fun g =>
    if 0 < ruleHits g st then
      some ⟨g.attack_type, clampConf g.base100 (ruleHits g st), ruleHits g st⟩
    else none)

/-- The sort order `matches.sort(key=lambda x: (-x[1], -x[2]))`:
higher confidence first, ties broken by more hits. -/
def matchRel (a b : MatchEntry) : Prop :=
  b.confidence < a.confidence ∨ (a.confidence = b.confidence ∧ b.hits ≤ a.hits)

instance : DecidableRel matchRel := fun a b => by
  unfold matchRel; infer_instance

/-- classify in regex_classifier.py: SAFE at 0.85 with no matches,
otherwise MALICIOUS with the best match after sorting. -/
def regex_classify (msg : String) : Verdict :=
  match List.insertionSort matchRel (matchesOf (searchTextOf msg)) with
  | [] => ⟨"SAFE", mkRat 85 100, "none", "regex"⟩
  | best :: _ => ⟨"MALICIOUS", best.confidence, best.attack_type, "regex"⟩

/-! ## Classification pipeline (main.py, classify_request) -/

/-- The value classify_request returns (rules version, reason and
response time are not modelled; `blocked` is the final block flag). -/
structure FinalDecision where
  classification : String
  confidence : ℚ
  attack_type : String
  classifier : String
  blocked : Bool
deriving DecidableEq

/-- classify_request in main.py, in the branch where a rules row
exists.  `hasCrusoe`/`hasClaude` are the key checks; `crusoeR` and
`claudeR` are the verdicts the external engines would return (their
classification field is the string read with
`result.get("classification", ...)`). -/
def classify_request (hasCrusoe hasClaude : Bool) (msg : String)
    (crusoeR claudeR : Verdict) : FinalDecision :=
  let regexR := regex_classify msg
  let s1 : String × ℚ × Verdict :=
    if hasCrusoe ∧ (crusoeR.classification = "MALICIOUS" ∨
        (crusoeR.classification = "SUSPICIOUS" ∧ regexR.classification ≠ "MALICIOUS")) then
      (crusoeR.classification, crusoeR.confidence, crusoeR)
    else (regexR.classification, regexR.confidence, regexR)
  let s2 : String × ℚ × Verdict :=
    if hasClaude ∧ (s1.1 = "SUSPICIOUS" ∨ s1.1 = "MALICIOUS") then
      if claudeR.classification = "MALICIOUS" then
        (claudeR.classification, claudeR.confidence, claudeR)
      else if claudeR.classification = "SAFE" ∧ regexR.classification ≠ "MALICIOUS" then
        ("SAFE", claudeR.confidence, claudeR)
      else s1
    else s1
  ⟨s2.1, s2.2.1, s2.2.2.attack_type, s2.2.2.classifier,
    decide (s2.1 = "MALICIOUS" ∧ mkRat 6 10 < s2.2.1)⟩

/-! ## External engine wrappers
(services/crusoe_classifier.py and services/claude_classifier.py).
The HTTP/SDK call is modelled by its outcome; `json.loads` restricted
to the expected verdict object is an abstract parameter `parse`
(`none` models a raised JSONDecodeError).  The classifier tag, the
response time and the interpolated detail of the reason strings are
not modelled. -/

def lbrace : Char := Char.ofNat 123

def rbrace : Char := Char.ofNat 125

/-- Verdict object decoded from an engine response. -/
structure EngVerdict where
  classification : String
  confidence : ℚ
  reason : String
deriving DecidableEq

/-- Outcome of `client.post` in the crusoe wrapper: the call either
raises (network failure, timeout) or yields a status code and the
message content of the response body. -/
inductive CrusoeCall where
  | netError (msg : String)
  | httpResponse (status : ℕ) (content : String)
deriving DecidableEq

/-- Outcome of the SDK call in the claude wrapper. -/
inductive ClaudeCall where
  | apiError (msg : String)
  | content (s : String)
deriving DecidableEq

/-- `content[content.find("{") : content.rfind("}") + 1]` when
`start_idx != -1 and end_idx > start_idx`, else `none`. -/
def braceSpan (content : String) : Option String :=
  let l := content.data
  match l.findIdx? (fun c => c == lbrace), l.reverse.findIdx? (fun c => c == rbrace) with
  | some i, some jr =>
      let j := l.length - 1 - jr
      if i < j + 1 then some ⟨(l.drop i).take (j + 1 - i)⟩ else none
  | _, _ => none

/-- classify in crusoe_classifier.py.  There is no try/except around
the network call or around the second `json.loads`, so those two
failures surface as `Except.error` (a raised exception). -/
def crusoe_classify (parse : String → Option EngVerdict) :
    CrusoeCall → Except String EngVerdict
  | CrusoeCall.netError m => Except.error m
  | CrusoeCall.httpResponse status content =>
      if status ≠ 200 then
        Except.ok ⟨"SUSPICIOUS", mkRat 1 2, "Crusoe API error"⟩
      else
        match parse content with
        | some v => Except.ok v
        | none =>
            match braceSpan content with
            | some span =>
                match parse span with
                | some v => Except.ok v
                | none => Except.error "json.JSONDecodeError"
            | none =>
                Except.ok ⟨"SUSPICIOUS", mkRat 1 2, "Failed to parse classifier response"⟩

/-- classify in claude_classifier.py: the whole body sits in
try/except, so every failure — including a JSONDecodeError raised on
the extracted brace span — returns the conservative verdict. -/
def claude_classify (parse : String → Option EngVerdict) : ClaudeCall → EngVerdict
  | ClaudeCall.apiError m => ⟨"SUSPICIOUS", mkRat 1 2, "Claude API error: " ++ m⟩
  | ClaudeCall.content s =>
      match parse s with
      | some v => v
      | none =>
          match braceSpan s with
          | some span =>
              match parse span with
              | some v => v
              | none => ⟨"SUSPICIOUS", mkRat 1 2, "Claude API error: JSONDecodeError"⟩
          | none => ⟨"SUSPICIOUS", mkRat 1 2, "Failed to parse classifier response"⟩

/-! ## Scout agent storage (src/backend/agents/peek.py, `_store`) -/

/-- A generated technique candidate, as read by `_store` with
`tech.get(...)`. -/
structure Candidate where
  technique_name : String
  category : String
  raw_payload : String
  severity : String
deriving DecidableEq

/-- A row inserted into the threats table by `_store` (source tag and
timestamp omitted). -/
structure InsertedRow where
  technique_name : String
  category : String
  raw_payload : String
  severity : String
deriving DecidableEq

/-- valid_cats in `_store`. -/
def valid_cats : List String :=
  ["sqli", "xss", "path_traversal", "command_injection", "ssrf", "rce",
   "header_injection", "xxe", "auth_bypass", "encoding_evasion"]

/-- Category coercion in `_store`: unknown categories degrade to
encoding_evasion. -/
def coerceCategory (c : String) : String :=
  if c ∈ valid_cats then c else "encoding_evasion"

/-- Severity coercion in `_store`: unknown severities degrade to
medium. -/
def coerceSeverity (s : String) : String :=
  if s ∈ ["low", "medium", "high", "critical"] then s else "medium"

/-- The candidate loop of `_store` in peek.py.  `existingNames` is the
running set of lowercased technique names and `existingNorms` the
running set of normalised payloads (Python sets, modelled as lists
with membership).  Returns the rows actually inserted, in order. -/
def storeGo (existingNames existingNorms : List String) : List Candidate → List InsertedRow
  | [] => []
  | t :: ts =>
      if pyStripStr t.technique_name = "" ∨ pyStripStr t.raw_payload = "" then
        storeGo existingNames existingNorms ts
      else if pyLowerStr (pyStripStr t.technique_name) ∈ existingNames then
        storeGo existingNames existingNorms ts
      else if _normalise_payload (pyStripStr t.raw_payload) ∈ existingNorms then
        storeGo existingNames existingNorms ts
      else
        ⟨pyStripStr t.technique_name, coerceCategory t.category,
         pyStripStr t.raw_payload, coerceSeverity t.severity⟩ ::
          storeGo (pyLowerStr (pyStripStr t.technique_name) :: existingNames)
            (_normalise_payload (pyStripStr t.raw_payload) :: existingNorms) ts

/-- `_store` in peek.py: the initial dedup sets are built from the
existing threat rows, given as (technique_name, raw_payload) pairs. -/
def storeInserted (existingRows : List (String × String)) (techniques : List Candidate) :
    List InsertedRow :=
  storeGo (existingRows.map (fun r => pyLowerStr r.1))
    (existingRows.map (fun r => _normalise_payload r.2)) techniques

/-! ## Red-Team agent (src/backend/agents/poke.py)

`_select_targets`, `_compute_bypass_score` and the bypass sorting of
`_analyse_results`.  Database rows are passed in as lists in the order
produced by the corresponding SQL query. -/

/-- A row of the threats table as selected by `_select_targets`. -/
structure Threat where
  id : ℕ
  technique_name : String
  raw_payload : String
  category : String
  severity : String
deriving DecidableEq

/-- MAX_TECHNIQUES_PER_CYCLE in poke.py. -/
def MAX_TECHNIQUES_PER_CYCLE : ℕ := 15

/-- The budget loop of `_select_targets`:
for each tier take `min(len(tier), budget)` and stop once the budget
is exhausted. -/
def allocateBudget : List (List Threat) → ℕ → List Threat
  | [], _ => []
  | tier :: rest, budget =>
      tier.take (min tier.length budget) ++
        (if budget - min tier.length budget = 0 then []
         else allocateBudget rest (budget - min tier.length budget))

/-- `_select_targets` in poke.py.  The three arguments are the rows of
the three SQL queries, already in query order (never tested newest
first; previously bypassing oldest-tested first; recently patched and
blocked newest first).  The third query carries `LIMIT 5`, modelled by
`take 5`. -/
def selectTargets (neverTested prevBypassing recentlyPatched : List Threat) : List Threat :=
  allocateBudget [neverTested, prevBypassing, recentlyPatched.take 5] MAX_TECHNIQUES_PER_CYCLE

/-- One result record produced by `_attack_single`, restricted to the
fields read by `_analyse_results` and `_compute_bypass_score`.
`error` is `some msg` for the HTTP-error and exception branches. -/
structure PokeResult where
  threat_id : ℕ
  severity : String
  confidence : ℚ
  blocked : Bool
  error : Option String
  category : String
deriving DecidableEq

/-- SEVERITY_WEIGHT in poke.py, read with
`SEVERITY_WEIGHT.get(severity, 2)`. -/
def SEVERITY_WEIGHT (s : String) : ℚ :=
  if s = "critical" then 4
  else if s = "high" then 3
  else if s = "medium" then 2
  else if s = "low" then 1
  else 2

/-- `_compute_bypass_score` in poke.py. -/
def computeBypassScore (r : PokeResult) : ℚ :=
  SEVERITY_WEIGHT r.severity * (1 + (1 - r.confidence))

/-- The bypass list produced by `_analyse_results` in poke.py: results
without an error and not blocked, sorted by bypass score, highest
first (the summary counters are not modelled; the claims concern only
the returned bypass list). -/
def analyseBypasses (results : List PokeResult) : List PokeResult :=
  let bypasses := results.filter (fun r => r.error.isNone && !r.blocked)
  List.insertionSort (fun a b => computeBypassScore b ≤ computeBypassScore a) bypasses

/-! ## Adaptation agent (src/backend/agents/patch.py) -/

/-- The values `_classify_failure` reads out of a bypass dict:
`classifier_response.get("classification", "SAFE")`,
`classifier_response.get("confidence", 0.0)`, `bypass.get("category", "")`
and `bypass.get("payload", "")`. -/
structure BypassRecord where
  classification : String
  confidence : ℚ
  category : String
  payload : String
deriving DecidableEq

/-- encoding_signals in `_classify_failure`. -/
def encoding_signals : List String :=
  ["%25", "%00", "\\u00", "%c0", "%fe", "%ff", "/**/", "/*!", "&#", "&lt;", "&gt;"]

/-- context_signals in `_classify_failure`. -/
def context_signals : List String :=
  ["multipart/form-data", "content-type: application/xml",
   "x-forwarded-for:", "graphql", "websocket", "upgrade:",
   "transfer-encoding: chunked"]

/-- semantic-miss category list in `_classify_failure`. -/
def semantic_categories : List String :=
  ["sqli", "xss", "command_injection", "rce", "ssrf"]

/-- `_classify_failure` in patch.py, translated branch for branch.  The
context-signal test is nested in the source: when a context signal is
present but the classification is not SAFE, control falls through to
the semantic-miss test, which is what the combined condition below
expresses. -/
def _classify_failure (b : BypassRecord) : String :=
  let payload := pyLowerStr b.payload
  if b.classification = "MALICIOUS" ∧ b.confidence ≤ 0.6 then
    "confidence_underflow"
  else if encoding_signals.any (fun sig => pyContains payload sig) then
    "encoding_evasion"
  else if (context_signals.any (fun sig => pyContains payload sig)) ∧ b.classification = "SAFE" then
    "context_blind_spot"
  else if b.classification = "SAFE" ∧ b.category ∈ semantic_categories then
    "semantic_miss"
  else
    "pattern_gap"

/-- The failure-mode taxonomy exactly as the specification words it
(section 4.4): first-match precedence over the five conditions (a)
confidence underflow, (b) obfuscation marker present, (c) verdict SAFE
with an unusual-delivery-context marker, (d) verdict SAFE on a
high-confidence-detectable category, (e) default pattern gap. -/
def specFailureMode (b : BypassRecord) : String :=
  let payload := pyLowerStr b.payload
  let obfuscated := encoding_signals.any (fun sig => pyContains payload sig)
  let unusualContext := context_signals.any (fun sig => pyContains payload sig)
  if b.classification = "MALICIOUS" ∧ b.confidence ≤ 0.6 then "confidence_underflow"
  else if obfuscated then "encoding_evasion"
  else if b.classification = "SAFE" ∧ unusualContext then "context_blind_spot"
  else if b.classification = "SAFE" ∧ b.category ∈ semantic_categories then "semantic_miss"
  else "pattern_gap"

/-! ## The iterative patch loop of the orchestrator
(src/backend/main.py, `_run_closed_loop`, with `patch.run` and
`poke.run` from the agents). -/

/-- MAX_PATCH_ROUNDS in main.py. -/
def MAX_PATCH_ROUNDS : ℕ := 2

/-- A Python value stored in the dict returned by `patch.run`:
the counters are numbers; main.py expects a list of bypass records
under "still_bypassing", carried here as a list of threat ids. -/
inductive PyVal where
  | pnat (n : ℕ)
  | plist (l : List ℕ)
deriving DecidableEq

/-- `d.get(key, default)` on an association-list model of a dict. -/
def dictGet (d : List (String × PyVal)) (key : String) (dflt : PyVal) : PyVal :=
  match d.find? (fun kv => kv.1 == key) with
  | some kv => kv.2
  | none => dflt

/-- The result of `patch.run` in patch.py: both the LLM path and the
heuristic fallback return a dict with exactly the keys "patched" and
"verified". -/
structure PatchRunResult where
  patched : ℕ
  verified : ℕ
deriving DecidableEq

/-- The dict literally returned by `patch.run`. -/
def patchRunDict (r : PatchRunResult) : List (String × PyVal) :=
  [("patched", PyVal.pnat r.patched), ("verified", PyVal.pnat r.verified)]

/-- The read `result.get("still_bypassing", [])` performed by
`_run_closed_loop` on the dict returned by `patch.run`. -/
def stillBypassingRead (r : PatchRunResult) : List ℕ :=
  match dictGet (patchRunDict r) "still_bypassing" (PyVal.plist []) with
  | PyVal.plist l => l
  | PyVal.pnat _ => []

/-- The `for round_num in range(1, MAX_PATCH_ROUNDS + 1)` loop body of
`_run_closed_loop`.  `patchRun` abstracts `patch.run` (returning its
actual result shape) and `pokeRepoke` abstracts the residual re-test
invocation of `poke.run`; `roundsLeft` counts the remaining loop
iterations and `roundNum` is the Python loop variable.  Returns
(number of patch rounds executed, number of residual re-pokes
executed). -/
def closedLoopGo (patchRun : List ℕ → PatchRunResult) (pokeRepoke : List ℕ → List ℕ) :
    ℕ → ℕ → List ℕ → ℕ × ℕ
  | 0, _, _ => (0, 0)
  | roundsLeft + 1, roundNum, current =>
      let result := patchRun current
      let still := stillBypassingRead result
      if still = [] ∨ MAX_PATCH_ROUNDS ≤ roundNum then (1, 0)
      else
        let repoke := pokeRepoke still
        if repoke = [] then (1, 1)
        else
          let rest := closedLoopGo patchRun pokeRepoke roundsLeft (roundNum + 1) repoke
          (1 + rest.1, 1 + rest.2)

/-- `_run_closed_loop` from the point where Red-Team has returned its
bypasses: with no bypasses Adapt is skipped; otherwise the bounded
patch/re-poke loop runs. -/
def runClosedLoop (bypasses : List ℕ) (patchRun : List ℕ → PatchRunResult)
    (pokeRepoke : List ℕ → List ℕ) : ℕ × ℕ :=
  if bypasses = [] then (0, 0)
  else closedLoopGo patchRun pokeRepoke MAX_PATCH_ROUNDS 1 bypasses

/-! ## Helper lemmas -/

theorem char_toNat_ofNat (n : ℕ) (h : n < 55296) : (Char.ofNat n).toNat = n := by
  have hv : n.isValidChar := Or.inl h
  rw [Char.ofNat, dif_pos hv]
  show (UInt32.ofNat' n _).toNat = n
  simp [UInt32.ofNat', UInt32.toNat, BitVec.ofNatLt]

theorem char_eq_iff_toNat {a b : Char} : a = b ↔ a.toNat = b.toNat := by
  constructor
  · intro h; rw [h]
  · intro h
    apply Char.ext
    have : a.val.toNat = b.val.toNat := h
    exact UInt32.toNat.inj this

theorem toLower_toNat (c : Char) :
    c.toLower.toNat = if c.toNat ≥ 65 ∧ c.toNat ≤ 90 then c.toNat + 32 else c.toNat := by
  show (if c.toNat ≥ 65 ∧ c.toNat ≤ 90 then Char.ofNat (c.toNat + 32) else c).toNat =
    if c.toNat ≥ 65 ∧ c.toNat ≤ 90 then c.toNat + 32 else c.toNat
  split_ifs with h
  · exact char_toNat_ofNat _ (by omega)
  · rfl

theorem pyLowerChar_idem (c : Char) : pyLowerChar (pyLowerChar c) = pyLowerChar c := by
  rw [char_eq_iff_toNat]
  simp only [pyLowerChar]
  rw [toLower_toNat c.toLower, toLower_toNat c]
  split_ifs <;> omega

theorem pyLowerChar_ne_pct {c : Char} (h : c ≠ '%') : pyLowerChar c ≠ '%' := by
  intro he
  apply h
  rw [char_eq_iff_toNat] at he ⊢
  rw [pyLowerChar, toLower_toNat] at he
  have h37 : ('%' : Char).toNat = 37 := rfl
  rw [h37] at he ⊢
  split_ifs at he <;> omega

theorem isPyWS_iff {c : Char} : isPyWS c = true ↔
    (c.toNat = 32 ∨ c.toNat = 9 ∨ c.toNat = 10 ∨ c.toNat = 13 ∨ c.toNat = 12 ∨ c.toNat = 11) := by
  simp [isPyWS, or_assoc]

theorem isPyWS_pyLowerChar (c : Char) : isPyWS (pyLowerChar c) = isPyWS c := by
  rw [Bool.eq_iff_iff, isPyWS_iff, isPyWS_iff, pyLowerChar, toLower_toNat]
  split_ifs <;> omega

theorem pyLowerChar_space : pyLowerChar ' ' = ' ' := rfl

theorem pyUnquoteGo_eq : ∀ (f1 : ℕ) (l : List Char) (f2 : ℕ), l.length ≤ f1 → l.length ≤ f2 →
    pyUnquoteGo f1 l = pyUnquoteGo f2 l := by
  intro f1
  induction f1 with
  | zero =>
      intro l f2 h1 _
      obtain rfl : l = [] := List.length_eq_zero.mp (Nat.le_zero.mp h1)
      cases f2 <;> rfl
  | succ f1 ih =>
      intro l f2 h1 h2
      cases l with
      | nil => cases f2 <;> rfl
      | cons c rest =>
          obtain ⟨f2, rfl⟩ : ∃ g, f2 = g + 1 := by
            cases f2
            · simp at h2
            · exact ⟨_, rfl⟩
          simp only [List.length_cons] at h1 h2
          simp only [pyUnquoteGo]
          by_cases hc : c = '%'
          · simp only [if_pos hc]
            cases rest with
            | nil => rw [ih [] f2 (by omega) (by omega)]
            | cons d tail =>
                cases tail with
                | nil =>
                    rw [ih [d] f2 (by simp only [List.length_cons, List.length_nil] at h1 h2 ⊢; omega) (by simp only [List.length_cons, List.length_nil] at h1 h2 ⊢; omega)]
                | cons e tail2 =>
                    simp only [List.length_cons] at h1 h2
                    rcases hd : hexDigit d with _ | a
                    · simp only [hd]
                      rw [ih (d :: e :: tail2) f2 (by simp only [List.length_cons] at h1 h2 ⊢; omega) (by simp only [List.length_cons] at h1 h2 ⊢; omega)]
                    · rcases he : hexDigit e with _ | b
                      · simp only [hd, he]
                        rw [ih (d :: e :: tail2) f2 (by simp only [List.length_cons] at h1 h2 ⊢; omega) (by simp only [List.length_cons] at h1 h2 ⊢; omega)]
                      · simp only [hd, he]
                        split_ifs with hlt
                        · rw [ih tail2 f2 (by omega) (by omega)]
                        · rw [ih (d :: e :: tail2) f2 (by simp only [List.length_cons] at h1 h2 ⊢; omega) (by simp only [List.length_cons] at h1 h2 ⊢; omega)]
          · simp only [if_neg hc]
            rw [ih rest f2 (by omega) (by omega)]

theorem collapseRun_true_eq : ∀ l : List Char, collapseRun true l = collapseWS (l.dropWhile isPyWS) := by
  intro l
  induction l with
  | nil => rfl
  | cons c rest ih =>
      by_cases hw : isPyWS c
      · simp only [collapseRun, if_pos hw, if_pos rfl, List.dropWhile_cons, hw, if_true]
        exact ih
      · simp [collapseRun, collapseWS, hw, List.dropWhile_cons]

theorem collapseWS_nil : collapseWS [] = [] := rfl

theorem collapseWS_cons (c : Char) (rest : List Char) :
    collapseWS (c :: rest) =
      if isPyWS c then (' ' :: collapseWS (rest.dropWhile isPyWS)) else c :: collapseWS rest := by
  by_cases hw : isPyWS c
  · simp only [collapseWS, collapseRun, if_pos hw]
    simp [collapseRun_true_eq, collapseWS]
  · simp [collapseWS, collapseRun, hw]

theorem collapseWS_induct (P : List Char → Prop) (h1 : P [])
    (h2 : ∀ c rest, isPyWS c = true → P (rest.dropWhile isPyWS) → P (c :: rest))
    (h3 : ∀ c rest, isPyWS c = false → P rest → P (c :: rest)) : ∀ l, P l := by
  have key : ∀ n (l : List Char), l.length ≤ n → P l := by
    intro n
    induction n with
    | zero =>
        intro l hl
        obtain rfl : l = [] := List.length_eq_zero.mp (Nat.le_zero.mp hl)
        exact h1
    | succ n ih =>
        intro l hl
        cases l with
        | nil => exact h1
        | cons c rest =>
            simp only [List.length_cons] at hl
            by_cases hw : isPyWS c
            · exact h2 c rest hw
                (ih _ (le_trans (List.dropWhile_sublist _).length_le (by omega)))
            · exact h3 c rest (by simpa using hw) (ih rest (by omega))
  exact fun l => key l.length l le_rfl

theorem pyUnquote_cons_ne {c : Char} {rest : List Char} (hc : c ≠ '%') :
    pyUnquote (c :: rest) = c :: pyUnquote rest := by
  show pyUnquoteGo (rest.length + 1) (c :: rest) = c :: pyUnquote rest
  simp only [pyUnquoteGo]
  rw [if_neg hc]
  rfl

theorem pyUnquote_of_no_pct : ∀ {l : List Char}, '%' ∉ l → pyUnquote l = l := by
  intro l
  induction l with
  | nil => intro _; rfl
  | cons c rest ih =>
      intro h
      have hc : c ≠ '%' := fun e => h (e ▸ List.mem_cons_self c rest)
      rw [pyUnquote_cons_ne hc, ih (fun hm => h (List.mem_cons_of_mem _ hm))]

theorem decode3_fixed {p : List Char} (h : pyUnquote p = p) : decode3 p = p := by
  simp [decode3, h]

theorem collapseWS_ne_nil {l : List Char} (h : l ≠ []) : collapseWS l ≠ [] := by
  cases l with
  | nil => exact absurd rfl h
  | cons c rest => rw [collapseWS_cons]; split_ifs <;> simp

theorem mem_collapseWS {x : Char} : ∀ {l : List Char}, x ∈ collapseWS l → x ∈ l ∨ x = ' ' := by
  intro l
  induction l using collapseWS_induct with
  | h1 => intro h; rw [collapseWS_nil] at h; simp at h
  | h2 c rest hws ih =>
      intro h
      rw [collapseWS_cons, if_pos hws] at h
      rcases List.mem_cons.mp h with h1 | h1
      · exact Or.inr h1
      · rcases ih h1 with h2 | h2
        · exact Or.inl (List.mem_cons_of_mem _ ((List.dropWhile_sublist _).mem h2))
        · exact Or.inr h2
  | h3 c rest hws ih =>
      intro h
      rw [collapseWS_cons, if_neg (by simp [hws])] at h
      rcases List.mem_cons.mp h with h1 | h1
      · exact Or.inl (h1 ▸ List.mem_cons_self c rest)
      · rcases ih h1 with h2 | h2
        · exact Or.inl (List.mem_cons_of_mem _ h2)
        · exact Or.inr h2

theorem head?_dropWhile_not (p : Char → Bool) :
    ∀ {l : List Char} {c : Char}, (l.dropWhile p).head? = some c → p c = false := by
  intro l
  induction l with
  | nil => intro c h; simp at h
  | cons d rest ih =>
      intro c h
      rw [List.dropWhile_cons] at h
      by_cases hd : p d
      · rw [if_pos hd] at h; exact ih h
      · rw [if_neg hd] at h
        simp at h
        rw [← h]
        exact Bool.not_eq_true _ ▸ (by simpa using hd)

theorem dropWhile_eq_self_of_head (p : Char → Bool) {l : List Char}
    (h : ∀ c, l.head? = some c → p c = false) : l.dropWhile p = l := by
  cases l with
  | nil => rfl
  | cons d rest =>
      rw [List.dropWhile_cons, if_neg]
      simp [h d rfl]

theorem pyStrip_sublist (l : List Char) : (pyStrip l).Sublist l := by
  unfold pyStrip dropTrailWS
  have h1 : ((l.dropWhile isPyWS).reverse.dropWhile isPyWS).Sublist (l.dropWhile isPyWS).reverse :=
    List.dropWhile_sublist _
  have h2 := h1.reverse
  rw [List.reverse_reverse] at h2
  exact h2.trans (List.dropWhile_sublist _)

theorem dropTrailWS_prefix (x : List Char) : dropTrailWS x <+: x := by
  unfold dropTrailWS
  have h1 : (x.reverse.dropWhile isPyWS).reverse <+: x.reverse.reverse :=
    List.reverse_prefix.mpr (List.dropWhile_suffix _)
  rwa [List.reverse_reverse] at h1

theorem pyStrip_head {l : List Char} {c : Char}
    (h : (pyStrip l).head? = some c) : isPyWS c = false := by
  obtain ⟨t, ht⟩ := dropTrailWS_prefix (l.dropWhile isPyWS)
  unfold pyStrip at h
  cases he : dropTrailWS (l.dropWhile isPyWS) with
  | nil => rw [he] at h; simp at h
  | cons d rest =>
      rw [he] at h ht
      simp at h
      subst h
      exact head?_dropWhile_not isPyWS (l := l) (by rw [← ht]; rfl)

theorem pyStrip_getLast {l : List Char} {c : Char}
    (h : (pyStrip l).getLast? = some c) : isPyWS c = false := by
  unfold pyStrip dropTrailWS at h
  rw [List.getLast?_reverse] at h
  exact head?_dropWhile_not isPyWS h

theorem pyStrip_eq_self {l : List Char}
    (hh : ∀ c, l.head? = some c → isPyWS c = false)
    (hl : ∀ c, l.getLast? = some c → isPyWS c = false) : pyStrip l = l := by
  unfold pyStrip dropTrailWS
  rw [dropWhile_eq_self_of_head isPyWS hh]
  rw [dropWhile_eq_self_of_head isPyWS (fun c hc => hl c (by rwa [List.head?_reverse] at hc))]
  exact List.reverse_reverse l

theorem head?_collapseWS {m : List Char}
    (h : ∀ c, m.head? = some c → isPyWS c = false) :
    ∀ c, (collapseWS m).head? = some c → isPyWS c = false := by
  cases m with
  | nil => intro c hc; rw [collapseWS_nil] at hc; simp at hc
  | cons d rest =>
      intro c hc
      have hd : isPyWS d = false := h d rfl
      rw [collapseWS_cons, if_neg (by simp [hd])] at hc
      simp at hc
      rwa [← hc]

theorem getLast?_cons_ne_nil {a : Char} {l : List Char} (h : l ≠ []) :
    (a :: l).getLast? = l.getLast? := by
  cases l with
  | nil => exact absurd rfl h
  | cons x xs => exact List.getLast?_cons_cons

theorem getLast?_some_of_ne_nil {l : List Char} (h : l ≠ []) :
    ∃ e, l.getLast? = some e := by
  cases he : l.getLast? with
  | none => exact absurd (List.getLast?_eq_none_iff.mp he) h
  | some e => exact ⟨e, rfl⟩

theorem mem_of_getLast? {l : List Char} {e : Char} (h : l.getLast? = some e) : e ∈ l :=
  List.mem_of_mem_getLast? h

theorem getLast?_collapseWS :
    ∀ {m : List Char}, (∀ c, m.getLast? = some c → isPyWS c = false) →
    ∀ c, (collapseWS m).getLast? = some c → isPyWS c = false := by
  intro m
  induction m using collapseWS_induct with
  | h1 => intro _ c hc; rw [collapseWS_nil] at hc; simp at hc
  | h2 d rest hws ih =>
      intro h c hc
      have hrest : rest ≠ [] := by
        rintro rfl
        have := h d (by simp)
        simp [hws] at this
      have hlast : ∀ e, rest.getLast? = some e → isPyWS e = false := by
        intro e he
        exact h e (by rw [getLast?_cons_ne_nil hrest, he])
      have hdrop_ne : rest.dropWhile isPyWS ≠ [] := by
        intro hnil
        obtain ⟨e, he⟩ := getLast?_some_of_ne_nil hrest
        have hmem : e ∈ rest := mem_of_getLast? he
        have := List.dropWhile_eq_nil_iff.mp hnil e hmem
        rw [hlast e he] at this
        exact Bool.false_ne_true this
      have hlast' : ∀ e, (rest.dropWhile isPyWS).getLast? = some e → isPyWS e = false := by
        intro e he
        obtain ⟨t, ht⟩ := List.dropWhile_suffix (l := rest) isPyWS
        apply hlast
        rw [← ht, List.getLast?_append_of_ne_nil _ hdrop_ne, he]
      rw [collapseWS_cons, if_pos hws] at hc
      rw [getLast?_cons_ne_nil (collapseWS_ne_nil hdrop_ne)] at hc
      exact ih hlast' c hc
  | h3 d rest hws ih =>
      intro h c hc
      rw [collapseWS_cons, if_neg (by simp [hws])] at hc
      by_cases hrest : rest = []
      · subst hrest
        rw [collapseWS_nil] at hc
        simp at hc
        subst hc
        exact hws
      · have hlast : ∀ e, rest.getLast? = some e → isPyWS e = false := by
          intro e he
          exact h e (by rw [getLast?_cons_ne_nil hrest, he])
        rw [getLast?_cons_ne_nil (collapseWS_ne_nil hrest)] at hc
        exact ih hlast c hc

/-- A list is in collapsed form when its only whitespace characters are
single spaces never followed by further whitespace. -/
def isCollapsed : List Char → Bool
  | [] => true
  | [c] => !isPyWS c || c = ' '
  | c :: d :: rest => (!isPyWS c || (c = ' ' && !isPyWS d)) && isCollapsed (d :: rest)

theorem isCollapsed_cons_of_not_ws {c : Char} {l : List Char} (hc : isPyWS c = false)
    (hl : isCollapsed l = true) : isCollapsed (c :: l) = true := by
  cases l with
  | nil => simp [isCollapsed, hc]
  | cons d rest => simp [isCollapsed, hc, hl]

theorem isCollapsed_collapseWS : ∀ (l : List Char), isCollapsed (collapseWS l) = true := by
  intro l
  induction l using collapseWS_induct with
  | h1 => rw [collapseWS_nil]; rfl
  | h2 c rest hws ih =>
      rw [collapseWS_cons, if_pos hws]
      cases hdw : rest.dropWhile isPyWS with
      | nil => simp [collapseWS_nil, isCollapsed]
      | cons e tail =>
          have he : isPyWS e = false := head?_dropWhile_not isPyWS (by rw [hdw]; rfl)
          rw [hdw] at ih
          rw [collapseWS_cons, if_neg (by simp [he])] at ih ⊢
          simpa [isCollapsed, he] using ih
  | h3 c rest hws ih =>
      rw [collapseWS_cons, if_neg (by simp [hws])]
      exact isCollapsed_cons_of_not_ws hws ih

theorem collapseWS_of_isCollapsed : ∀ {l : List Char}, isCollapsed l = true → collapseWS l = l := by
  intro l
  induction l with
  | nil => intro _; rfl
  | cons c rest ih =>
      intro h
      cases rest with
      | nil =>
          rw [isCollapsed] at h
          simp only [Bool.or_eq_true, Bool.not_eq_true', decide_eq_true_eq] at h
          rcases h with h | h
          · rw [collapseWS_cons, if_neg (by simp [h]), collapseWS_nil]
          · subst h
            have hsp : isPyWS ' ' = true := rfl
            rw [collapseWS_cons, if_pos hsp]
            simp [collapseWS_nil]
      | cons d tail =>
          rw [isCollapsed, Bool.and_eq_true] at h
          obtain ⟨h1, h2⟩ := h
          have ih2 := ih h2
          simp only [Bool.or_eq_true, Bool.and_eq_true, Bool.not_eq_true',
            decide_eq_true_eq] at h1
          rcases h1 with h1 | ⟨h1, h1d⟩
          · rw [collapseWS_cons, if_neg (by simp [h1]), ih2]
          · subst h1
            have hsp : isPyWS ' ' = true := rfl
            rw [collapseWS_cons, if_pos hsp, List.dropWhile_cons, if_neg (by simp [h1d]), ih2]

theorem collapseWS_idem (l : List Char) : collapseWS (collapseWS l) = collapseWS l :=
  collapseWS_of_isCollapsed (isCollapsed_collapseWS l)

/-- Core of C8: normalization is idempotent on percent-free payloads. -/
theorem normalisePayloadL_idem {l : List Char} (hp : '%' ∉ l) :
    normalisePayloadL (normalisePayloadL l) = normalisePayloadL l := by
  have h1p : '%' ∉ pyLower l := by
    intro hm
    obtain ⟨c, hc, he⟩ := List.mem_map.mp hm
    exact pyLowerChar_ne_pct (fun e => hp (e ▸ hc)) he
  have hmp : '%' ∉ pyStrip (pyLower l) := fun hm => h1p ((pyStrip_sublist _).mem hm)
  have hdec : decode3 (pyStrip (pyLower l)) = pyStrip (pyLower l) :=
    decode3_fixed (pyUnquote_of_no_pct hmp)
  have hn1 : normalisePayloadL l = collapseWS (pyStrip (pyLower l)) := by
    rw [normalisePayloadL, hdec]
  have hmem : ∀ x ∈ collapseWS (pyStrip (pyLower l)),
      x ∈ pyStrip (pyLower l) ∨ x = ' ' := fun _ hx => mem_collapseWS hx
  have hlowm : ∀ x ∈ pyStrip (pyLower l), pyLowerChar x = x := by
    intro x hx
    obtain ⟨c, _, he⟩ := List.mem_map.mp ((pyStrip_sublist _).mem hx)
    rw [← he]
    exact pyLowerChar_idem c
  have hlowr : pyLower (collapseWS (pyStrip (pyLower l))) = collapseWS (pyStrip (pyLower l)) := by
    have hall : ∀ x ∈ collapseWS (pyStrip (pyLower l)), pyLowerChar x = id x := by
      intro x hx
      rcases hmem x hx with h | h
      · exact hlowm x h
      · rw [h]; rfl
    exact (List.map_congr_left hall).trans (List.map_id _)
  have hrp : '%' ∉ collapseWS (pyStrip (pyLower l)) := by
    intro hm
    rcases hmem _ hm with h | h
    · exact hmp h
    · simp at h
  have hhead : ∀ c, (collapseWS (pyStrip (pyLower l))).head? = some c → isPyWS c = false := by
    intro c hc
    cases hm0 : pyStrip (pyLower l) with
    | nil => rw [hm0, collapseWS_nil] at hc; simp at hc
    | cons d rest =>
        have hd : isPyWS d = false := pyStrip_head (l := pyLower l) (by rw [hm0]; rfl)
        rw [hm0, collapseWS_cons, if_neg (by simp [hd])] at hc
        simp at hc
        rwa [← hc]
  have hlast : ∀ c, (collapseWS (pyStrip (pyLower l))).getLast? = some c → isPyWS c = false :=
    getLast?_collapseWS (fun _ hc => pyStrip_getLast (l := pyLower l) hc)
  have hstrip_r : pyStrip (collapseWS (pyStrip (pyLower l))) = collapseWS (pyStrip (pyLower l)) :=
    pyStrip_eq_self hhead hlast
  have hdecr : decode3 (collapseWS (pyStrip (pyLower l))) = collapseWS (pyStrip (pyLower l)) :=
    decode3_fixed (pyUnquote_of_no_pct hrp)
  rw [hn1, normalisePayloadL, hlowr, hstrip_r, hdecr, collapseWS_idem]

theorem storeGo_invariant (ts : List Candidate) :
    ∀ (names norms : List String),
      ((storeGo names norms ts).Pairwise
        (fun a b => _normalise_payload a.raw_payload ≠ _normalise_payload b.raw_payload)) ∧
      (∀ r ∈ storeGo names norms ts, _normalise_payload r.raw_payload ∉ norms) ∧
      (∀ r ∈ storeGo names norms ts, pyLowerStr r.technique_name ∉ names) := by
  induction ts with
  | nil => intro names norms; simp [storeGo]
  | cons t ts ih =>
      intro names norms
      rw [storeGo]
      split_ifs with h1 h2 h3
      · exact ih names norms
      · exact ih names norms
      · exact ih names norms
      · obtain ⟨ihp, ihn, ihm⟩ := ih (pyLowerStr (pyStripStr t.technique_name) :: names)
          (_normalise_payload (pyStripStr t.raw_payload) :: norms)
        refine ⟨?_, ?_, ?_⟩
        · rw [List.pairwise_cons]
          refine ⟨?_, ihp⟩
          intro b hb
          have hbn := ihn b hb
          simp only [List.mem_cons, not_or] at hbn
          exact fun he => hbn.1 he.symm
        · intro r hr
          rcases List.mem_cons.mp hr with rfl | hr
          · exact h3
          · have := ihn r hr
            simp only [List.mem_cons, not_or] at this
            exact this.2
        · intro r hr
          rcases List.mem_cons.mp hr with rfl | hr
          · exact h2
          · have := ihm r hr
            simp only [List.mem_cons, not_or] at this
            exact this.2

theorem allocateBudget_zero (rest : List (List Threat)) : allocateBudget rest 0 = [] := by
  cases rest <;> simp [allocateBudget]

theorem allocateBudget_cons (t : List Threat) (rest : List (List Threat)) (b : ℕ) :
    allocateBudget (t :: rest) b = t.take b ++ allocateBudget rest (b - t.length) := by
  have htake : t.take (min t.length b) = t.take b := by
    rcases le_total t.length b with h | h
    · rw [min_eq_left h, List.take_length, List.take_of_length_le h]
    · rw [min_eq_right h]
  have hrem : b - min t.length b = b - t.length := by omega
  simp only [allocateBudget, htake, hrem]
  rcases Nat.eq_zero_or_pos (b - t.length) with h0 | hpos
  · rw [h0, if_pos rfl, allocateBudget_zero]
  · rw [if_neg (by omega)]

/-! ## Theorems for the claims -/

/-- C4: the failure-mode diagnosis of patch.py assigns exactly one mode
by the first-match precedence the specification states (confidence
underflow, then obfuscation markers, then SAFE with an
unusual-context marker, then SAFE on a high-confidence-detectable
category, then pattern gap); in particular a bypass whose verdict is
MALICIOUS at confidence 0.4 is diagnosed confidence_underflow. -/
theorem C4_failure_mode_diagnosis :
    (∀ b : BypassRecord, _classify_failure b = specFailureMode b) ∧
    _classify_failure ⟨"MALICIOUS", 0.4, "sqli", "1 OR 1=1"⟩ = "confidence_underflow" := by
  constructor
  · intro b
    simp only [_classify_failure, specFailureMode]
    split_ifs <;> first | rfl | tauto
  · norm_num [_classify_failure]

/-- C5: the residual re-test round described by the specification never
executes.  `patch.run` returns a dict holding only the keys "patched"
and "verified", so the orchestrator read
`result.get("still_bypassing", [])` always produces the empty default
and `_run_closed_loop` exits after a single Adapt round with zero
residual Red-Team re-tests, for every behaviour of the two agents and
every non-empty bypass list. -/
theorem C5_patch_loop_never_retests :
    (∀ (r : PatchRunResult) (l : List ℕ),
        dictGet (patchRunDict r) "still_bypassing" (PyVal.plist l) = PyVal.plist l) ∧
    ∀ (patchRun : List ℕ → PatchRunResult) (pokeRepoke : List ℕ → List ℕ)
      (bypasses : List ℕ), bypasses ≠ [] →
      runClosedLoop bypasses patchRun pokeRepoke = (1, 0) := by
  refine ⟨fun r l => rfl, fun patchRun pokeRepoke bypasses hb => ?_⟩
  unfold runClosedLoop
  rw [if_neg hb]
  rfl

/-- Witness for C5: a cycle with two bypasses that would remain
unblocked runs one patch round and zero residual re-tests. -/
theorem C5_witness :
    runClosedLoop [101, 202] (fun _ => ⟨2, 0⟩) (fun l => l) = (1, 0) :=
  C5_patch_loop_never_retests.2 _ _ _ (by decide)

/-- C6: the danger score is severity weight times (1 + (1 - confidence))
with weights critical 4, high 3, medium 2, low 1; it is strictly
increasing in the severity weight at fixed confidence (confidence at
most 1) and strictly decreasing in confidence at fixed severity; and
the bypass list returned by Red-Team analysis is sorted with the
highest score first. -/
theorem C6_danger_score :
    (SEVERITY_WEIGHT "critical" = 4 ∧ SEVERITY_WEIGHT "high" = 3 ∧
     SEVERITY_WEIGHT "medium" = 2 ∧ SEVERITY_WEIGHT "low" = 1) ∧
    (∀ r : PokeResult,
        computeBypassScore r = SEVERITY_WEIGHT r.severity * (1 + (1 - r.confidence))) ∧
    (∀ a b : PokeResult, a.confidence = b.confidence → a.confidence ≤ 1 →
        SEVERITY_WEIGHT a.severity < SEVERITY_WEIGHT b.severity →
        computeBypassScore a < computeBypassScore b) ∧
    (∀ a b : PokeResult, a.severity = b.severity → a.confidence < b.confidence →
        computeBypassScore b < computeBypassScore a) ∧
    (∀ results : List PokeResult,
        List.Sorted (fun x y => computeBypassScore y ≤ computeBypassScore x)
          (analyseBypasses results)) := by
  have hpos : ∀ s, (0 : ℚ) < SEVERITY_WEIGHT s := by
    intro s; unfold SEVERITY_WEIGHT; split_ifs <;> norm_num
  refine ⟨by refine ⟨by decide, by decide, by decide, by decide⟩, fun r => rfl, ?_, ?_, ?_⟩
  · intro a b hconf hle hw
    unfold computeBypassScore
    rw [← hconf]
    have h2 : (0 : ℚ) < 1 + (1 - a.confidence) := by linarith
    exact mul_lt_mul_of_pos_right hw h2
  · intro a b hsev hconf
    unfold computeBypassScore
    rw [hsev]
    have := hpos b.severity
    nlinarith
  · intro results
    simp only [analyseBypasses]
    haveI : IsTotal PokeResult (fun x y => computeBypassScore y ≤ computeBypassScore x) :=
      ⟨fun a b => le_total _ _⟩
    haveI : IsTrans PokeResult (fun x y => computeBypassScore y ≤ computeBypassScore x) :=
      ⟨fun _ _ _ h1 h2 => le_trans h2 h1⟩
    exact List.sorted_insertionSort _ _

/-- Witness for C6: concrete instances of the strict monotonicity in
severity and confidence. -/
theorem C6_witness :
    computeBypassScore ⟨1, "low", 1/2, false, none, "sqli"⟩ <
      computeBypassScore ⟨2, "critical", 1/2, false, none, "sqli"⟩ ∧
    computeBypassScore ⟨3, "high", 3/4, false, none, "xss"⟩ <
      computeBypassScore ⟨4, "high", 1/4, false, none, "xss"⟩ :=
  ⟨C6_danger_score.2.2.1 _ _ rfl (by norm_num) (by decide),
   C6_danger_score.2.2.2.1 _ _ rfl (by norm_num)⟩

/-! ## Helper lemmas for the Stage 0 classifier -/

instance : IsTotal MatchEntry matchRel := by
  constructor
  intro a b
  unfold matchRel
  rcases lt_trichotomy a.confidence b.confidence with h | h | h
  · right; left; exact h
  · rcases le_total b.hits a.hits with hh | hh
    · left; right; exact ⟨h, hh⟩
    · right; right; exact ⟨h.symm, hh⟩
  · left; left; exact h

instance : IsTrans MatchEntry matchRel := by
  constructor
  intro a b c hab hbc
  unfold matchRel at *
  rcases hab with h1 | ⟨h1, h1h⟩ <;> rcases hbc with h2 | ⟨h2, h2h⟩
  · exact Or.inl (lt_trans h2 h1)
  · exact Or.inl (h2 ▸ h1)
  · exact Or.inl (h1 ▸ h2)
  · exact Or.inr ⟨h1.trans h2, le_trans h2h h1h⟩

theorem mem_matchesOf {st : List Char} {e : MatchEntry} :
    e ∈ matchesOf st ↔ ∃ g ∈ RULES, 0 < ruleHits g st ∧
      e = ⟨g.attack_type, clampConf g.base100 (ruleHits g st), ruleHits g st⟩ := by
  unfold matchesOf
  rw [List.mem_filterMap]
  constructor
  · rintro ⟨g, hg, hfg⟩
    by_cases h0 : 0 < ruleHits g st
    · rw [if_pos h0] at hfg
      exact ⟨g, hg, h0, (Option.some_inj.mp hfg).symm⟩
    · rw [if_neg h0] at hfg; cases hfg
  · rintro ⟨g, hg, h0, rfl⟩
    exact ⟨g, hg, by rw [if_pos h0]⟩

theorem regex_classify_cases (msg : String) :
    (matchesOf (searchTextOf msg) = [] ∧
      regex_classify msg = ⟨"SAFE", mkRat 85 100, "none", "regex"⟩) ∨
    (∃ b, b ∈ matchesOf (searchTextOf msg) ∧
      regex_classify msg = ⟨"MALICIOUS", b.confidence, b.attack_type, "regex"⟩ ∧
      ∀ e ∈ matchesOf (searchTextOf msg), e.confidence ≤ b.confidence) := by
  cases hs : List.insertionSort matchRel (matchesOf (searchTextOf msg)) with
  | nil =>
      left
      have hperm := List.perm_insertionSort matchRel (matchesOf (searchTextOf msg))
      rw [hs] at hperm
      refine ⟨(hperm.symm.eq_nil), ?_⟩
      unfold regex_classify
      rw [hs]
  | cons b t =>
      right
      have hperm := List.perm_insertionSort matchRel (matchesOf (searchTextOf msg))
      rw [hs] at hperm
      have hb : b ∈ matchesOf (searchTextOf msg) := hperm.mem_iff.mp (List.mem_cons_self _ _)
      have hsorted := List.sorted_insertionSort matchRel (matchesOf (searchTextOf msg))
      rw [hs] at hsorted
      refine ⟨b, hb, by unfold regex_classify; rw [hs], ?_⟩
      intro e he
      rcases List.mem_cons.mp (hperm.mem_iff.mpr he) with rfl | he3
      · exact le_refl _
      · rcases (List.sorted_cons.mp hsorted).1 e he3 with h | ⟨h1, _⟩
        · exact le_of_lt h
        · exact le_of_eq h1.symm

theorem clampConf_eq_formula (b k : ℕ) (hk : 1 ≤ k) :
    clampConf b k = min ((b : ℚ)/100 + ((k - 1 : ℕ) : ℚ) * (3/100)) (99/100) := by
  unfold clampConf
  rw [Rat.mkRat_eq_div]
  push_cast [Nat.cast_min, Nat.cast_sub hk]
  rw [← min_div_div_right (by norm_num : (0:ℚ) ≤ 100)]
  congr 1
  ring

theorem mkRat100_bounds {n : ℕ} (h1 : 80 ≤ n) (h2 : n ≤ 99) :
    (4/5 : ℚ) ≤ mkRat n 100 ∧ mkRat n 100 ≤ 99/100 := by
  rw [Rat.mkRat_eq_div]
  have hn1 : (80 : ℚ) ≤ ((n : ℤ) : ℚ) := by exact_mod_cast h1
  have hn2 : ((n : ℤ) : ℚ) ≤ 99 := by exact_mod_cast h2
  have h100 : (((100 : ℕ) : ℚ)) = (100 : ℚ) := by norm_num
  rw [h100]
  constructor
  · have hd := (div_le_div_iff_of_pos_right (show (0:ℚ) < 100 by norm_num)).mpr hn1
    calc (4/5 : ℚ) = 80/100 := by norm_num
    _ ≤ _ := hd
  · exact (div_le_div_iff_of_pos_right (show (0:ℚ) < 100 by norm_num)).mpr hn2

theorem clampConf_bounds {b k : ℕ} (h1 : 80 ≤ b) :
    (4/5 : ℚ) ≤ clampConf b k ∧ clampConf b k ≤ 99/100 := by
  unfold clampConf
  exact @mkRat100_bounds (min (b + (k - 1) * 3) 99) (by omega) (by omega)

theorem rules_base_bounds : ∀ g ∈ RULES, 80 ≤ g.base100 := by
  intro g hg
  simp only [RULES, List.mem_cons, List.mem_singleton, List.not_mem_nil, or_false] at hg
  rcases hg with rfl | rfl | rfl | rfl | rfl | rfl | rfl | rfl | rfl <;> norm_num

theorem mkRat_85_100 : mkRat 85 100 = (85/100 : ℚ) := by
  rw [Rat.mkRat_eq_div]; norm_num

/-- The scenario payload of C3: the string with the characters
apostrophe, space, O, R, space, apostrophe, 1, apostrophe, equals,
apostrophe, 1, apostrophe, space, dash, dash. -/
def sqliScenarioPayload : String :=
  ⟨[apos, ' ', 'O', 'R', ' ', apos, '1', apos, '=', apos, '1', apos, ' ', '-', '-']⟩

theorem classify_request_no_engines (msg : String) (cr cl : Verdict) :
    classify_request false false msg cr cl =
      ⟨(regex_classify msg).classification, (regex_classify msg).confidence,
       (regex_classify msg).attack_type, (regex_classify msg).classifier,
       decide ((regex_classify msg).classification = "MALICIOUS" ∧
         mkRat 6 10 < (regex_classify msg).confidence)⟩ := by
  unfold classify_request
  simp

/-- C1: a Stage 0 MALICIOUS classification is a floor: whatever the
two external engines answer and whether or not they are configured,
the final classification of classify_request stays MALICIOUS — a fast
SUSPICIOUS verdict cannot downgrade it and the deep engine can clear
to SAFE only when Stage 0 did not itself say MALICIOUS. -/
theorem C1_local_malicious_floor :
    ∀ (hasCrusoe hasClaude : Bool) (msg : String) (crusoeR claudeR : Verdict),
      (regex_classify msg).classification = "MALICIOUS" →
      (classify_request hasCrusoe hasClaude msg crusoeR claudeR).classification =
        "MALICIOUS" := by
  intro hasCrusoe hasClaude msg crusoeR claudeR hreg
  unfold classify_request
  simp only [hreg]
  split_ifs <;> simp_all

/-- Witness for C1: the payload "%00" is MALICIOUS for Stage 0, and the
pipeline keeps MALICIOUS against a SUSPICIOUS fast verdict and a SAFE
deep verdict. -/
theorem C1_witness :
    (regex_classify "%00").classification = "MALICIOUS" ∧
    (classify_request true true "%00" ⟨"SUSPICIOUS", mkRat 5 10, "none", "crusoe"⟩
      ⟨"SAFE", mkRat 9 10, "none", "claude"⟩).classification = "MALICIOUS" :=
  ⟨by decide, C1_local_malicious_floor _ _ _ _ _ (by decide)⟩

/-- C2 counterexample: the fast (crusoe) wrapper does propagate an
exception to the caller — a network failure is not caught, so the
claim that both wrappers always degrade to a SUSPICIOUS verdict and
never propagate is false. -/
theorem C2_counterexample :
    crusoe_classify (fun _ => none) (CrusoeCall.netError "connection refused") =
      Except.error "connection refused" := rfl

/-- C2 amended: the deep (claude) wrapper returns classification
SUSPICIOUS at confidence 0.5 with a diagnostic reason on every failure
outcome and never propagates an exception; the fast (crusoe) wrapper
degrades the same way on a non-200 status and on an unparsable body
that contains no brace-delimited span, but it propagates an exception
on network failure and when the extracted brace span itself fails to
parse. -/
theorem C2_engine_error_handling :
    (∀ (parse : String → Option EngVerdict) (m : String),
      claude_classify parse (ClaudeCall.apiError m) =
        ⟨"SUSPICIOUS", mkRat 1 2, "Claude API error: " ++ m⟩) ∧
    (∀ (parse : String → Option EngVerdict) (s : String),
      parse s = none → braceSpan s = none →
      claude_classify parse (ClaudeCall.content s) =
        ⟨"SUSPICIOUS", mkRat 1 2, "Failed to parse classifier response"⟩) ∧
    (∀ (parse : String → Option EngVerdict) (s span : String),
      parse s = none → braceSpan s = some span → parse span = none →
      claude_classify parse (ClaudeCall.content s) =
        ⟨"SUSPICIOUS", mkRat 1 2, "Claude API error: JSONDecodeError"⟩) ∧
    (∀ (parse : String → Option EngVerdict) (status : ℕ) (content : String),
      status ≠ 200 →
      crusoe_classify parse (CrusoeCall.httpResponse status content) =
        Except.ok ⟨"SUSPICIOUS", mkRat 1 2, "Crusoe API error"⟩) ∧
    (∀ (parse : String → Option EngVerdict) (content : String),
      parse content = none → braceSpan content = none →
      crusoe_classify parse (CrusoeCall.httpResponse 200 content) =
        Except.ok ⟨"SUSPICIOUS", mkRat 1 2, "Failed to parse classifier response"⟩) ∧
    (∀ (parse : String → Option EngVerdict) (m : String),
      crusoe_classify parse (CrusoeCall.netError m) = Except.error m) ∧
    (∀ (parse : String → Option EngVerdict) (content span : String),
      parse content = none → braceSpan content = some span → parse span = none →
      crusoe_classify parse (CrusoeCall.httpResponse 200 content) =
        Except.error "json.JSONDecodeError") := by
  refine ⟨fun parse m => rfl, ?_, ?_, ?_, ?_, fun parse m => rfl, ?_⟩
  · intro parse s h1 h2
    simp [claude_classify, h1, h2]
  · intro parse s span h1 h2 h3
    simp [claude_classify, h1, h2, h3]
  · intro parse status content h
    simp [crusoe_classify, h]
  · intro parse content h1 h2
    simp [crusoe_classify, h1, h2]
  · intro parse content span h1 h2 h3
    simp [crusoe_classify, h1, h2, h3]

/-- Witness for C2: concrete failure outcomes for both wrappers,
including a brace span that fails to parse. -/
theorem C2_witness :
    claude_classify (fun _ => none) (ClaudeCall.apiError "timeout") =
      ⟨"SUSPICIOUS", mkRat 1 2, "Claude API error: timeout"⟩ ∧
    crusoe_classify (fun _ => none) (CrusoeCall.httpResponse 500 "oops") =
      Except.ok ⟨"SUSPICIOUS", mkRat 1 2, "Crusoe API error"⟩ ∧
    crusoe_classify (fun _ => none) (CrusoeCall.httpResponse 200 "no json here") =
      Except.ok ⟨"SUSPICIOUS", mkRat 1 2, "Failed to parse classifier response"⟩ ∧
    crusoe_classify (fun _ => none)
        (CrusoeCall.httpResponse 200 ⟨['x', lbrace, 'a', rbrace]⟩) =
      Except.error "json.JSONDecodeError" :=
  ⟨C2_engine_error_handling.1 _ _,
   C2_engine_error_handling.2.2.2.1 _ 500 _ (by decide),
   C2_engine_error_handling.2.2.2.2.1 _ _ rfl (by decide),
   C2_engine_error_handling.2.2.2.2.2.2 _ _ ⟨[lbrace, 'a', rbrace]⟩ rfl (by decide) rfl⟩

/-- C3: Stage 0 returns SAFE at confidence 0.85 when no rule group
matches the search text (the raw text joined with its twice-URL-decoded
form), and otherwise MALICIOUS with a highest-confidence matching
category at confidence base + 0.03 per extra hit capped at 0.99; the
scenario payload yields MALICIOUS, sqli, confidence at least 0.92. -/
theorem C3_stage0_classifier :
    (∀ msg : String,
      ((∀ g ∈ RULES, ruleHits g (searchTextOf msg) = 0) →
        (regex_classify msg).classification = "SAFE" ∧
        (regex_classify msg).confidence = 85/100 ∧
        (regex_classify msg).attack_type = "none") ∧
      ((∃ g ∈ RULES, 0 < ruleHits g (searchTextOf msg)) →
        (regex_classify msg).classification = "MALICIOUS" ∧
        ∃ g ∈ RULES, 0 < ruleHits g (searchTextOf msg) ∧
          (regex_classify msg).attack_type = g.attack_type ∧
          (regex_classify msg).confidence =
            min ((g.base100 : ℚ)/100 +
              ((ruleHits g (searchTextOf msg) - 1 : ℕ) : ℚ) * (3/100)) (99/100) ∧
          ∀ g2 ∈ RULES, 0 < ruleHits g2 (searchTextOf msg) →
            min ((g2.base100 : ℚ)/100 +
              ((ruleHits g2 (searchTextOf msg) - 1 : ℕ) : ℚ) * (3/100)) (99/100) ≤
              (regex_classify msg).confidence)) ∧
    ((regex_classify sqliScenarioPayload).classification = "MALICIOUS" ∧
     (regex_classify sqliScenarioPayload).attack_type = "sqli" ∧
     (92/100 : ℚ) ≤ (regex_classify sqliScenarioPayload).confidence) := by
  constructor
  · intro msg
    constructor
    · intro h0
      have hempty : matchesOf (searchTextOf msg) = [] := by
        unfold matchesOf
        rw [List.filterMap_eq_nil_iff]
        intro g hg
        rw [if_neg (by rw [h0 g hg]; exact lt_irrefl 0)]
      rcases regex_classify_cases msg with ⟨_, heq⟩ | ⟨b, hb, _, _⟩
      · rw [heq]
        exact ⟨rfl, mkRat_85_100, rfl⟩
      · rw [hempty] at hb
        simp at hb
    · rintro ⟨g, hg, hpos⟩
      rcases regex_classify_cases msg with ⟨hempty, _⟩ | ⟨b, hb, heq, hmax⟩
      · exfalso
        have hmem : (⟨g.attack_type, clampConf g.base100 (ruleHits g (searchTextOf msg)),
            ruleHits g (searchTextOf msg)⟩ : MatchEntry) ∈ matchesOf (searchTextOf msg) :=
          mem_matchesOf.mpr ⟨g, hg, hpos, rfl⟩
        rw [hempty] at hmem
        simp at hmem
      · obtain ⟨gb, hgb, hbpos, hbe⟩ := mem_matchesOf.mp hb
        subst hbe
        refine ⟨by rw [heq], gb, hgb, hbpos, by rw [heq], ?_, ?_⟩
        · rw [heq]
          exact clampConf_eq_formula _ _ hbpos
        · intro g2 hg2 h2pos
          have hmem2 : (⟨g2.attack_type, clampConf g2.base100 (ruleHits g2 (searchTextOf msg)),
              ruleHits g2 (searchTextOf msg)⟩ : MatchEntry) ∈ matchesOf (searchTextOf msg) :=
            mem_matchesOf.mpr ⟨g2, hg2, h2pos, rfl⟩
          have hle := hmax _ hmem2
          rw [heq, ← clampConf_eq_formula _ _ h2pos]
          exact hle
  · refine ⟨by decide, by decide, ?_⟩
    have h92 : (92/100 : ℚ) = mkRat 92 100 := by rw [Rat.mkRat_eq_div]; norm_num
    rw [h92]
    decide

/-- Witness for C3: on a no-match input every rule group has zero
hits and the classifier answers SAFE at 0.85. -/
theorem C3_witness :
    (∀ g ∈ RULES, ruleHits g (searchTextOf "hello world") = 0) ∧
    (regex_classify "hello world").classification = "SAFE" ∧
    (regex_classify "hello world").confidence = 85/100 :=
  ⟨by decide, ((C3_stage0_classifier.1 "hello world").1 (by decide)).1,
   ((C3_stage0_classifier.1 "hello world").1 (by decide)).2.1⟩

/-- C10: Stage 0 never answers SUSPICIOUS — its classification is SAFE
or MALICIOUS, its confidence always lies in [0.80, 0.99] and SAFE is
always reported at exactly 0.85; hence with no external engines
configured (and a rules row present) the final pipeline classification
is never SUSPICIOUS. -/
theorem C10_stage0_verdict_invariants :
    ∀ msg : String,
      ((regex_classify msg).classification = "SAFE" ∨
        (regex_classify msg).classification = "MALICIOUS") ∧
      ((4/5 : ℚ) ≤ (regex_classify msg).confidence ∧
        (regex_classify msg).confidence ≤ 99/100) ∧
      ((regex_classify msg).classification = "SAFE" →
        (regex_classify msg).confidence = 85/100) ∧
      ∀ crusoeR claudeR : Verdict,
        (classify_request false false msg crusoeR claudeR).classification ≠ "SUSPICIOUS" := by
  intro msg
  rcases regex_classify_cases msg with ⟨_, heq⟩ | ⟨b, hb, heq, _⟩
  · refine ⟨Or.inl (by rw [heq]), ⟨?_, ?_⟩, fun _ => by rw [heq]; exact mkRat_85_100, ?_⟩
    · rw [heq]
      show (4/5 : ℚ) ≤ mkRat 85 100
      rw [mkRat_85_100]; norm_num
    · rw [heq]
      show mkRat 85 100 ≤ 99/100
      rw [mkRat_85_100]; norm_num
    · intro cr cl
      rw [classify_request_no_engines, heq]
      decide
  · obtain ⟨g, hg, hpos, hbe⟩ := mem_matchesOf.mp hb
    subst hbe
    have hbounds := @clampConf_bounds g.base100 (ruleHits g (searchTextOf msg))
      (rules_base_bounds g hg)
    refine ⟨Or.inr (by rw [heq]), ⟨?_, ?_⟩, fun hS => ?_, ?_⟩
    · rw [heq]; exact hbounds.1
    · rw [heq]; exact hbounds.2
    · rw [heq] at hS
      have hS2 : ("MALICIOUS" : String) = "SAFE" := hS
      exact absurd hS2 (by decide)
    · intro cr cl
      rw [classify_request_no_engines, heq]
      show ¬("MALICIOUS" : String) = "SUSPICIOUS"
      decide

/-- Witness for C10: a concrete benign input is SAFE at exactly 0.85
and the engine-free pipeline does not answer SUSPICIOUS. -/
theorem C10_witness :
    (regex_classify "hi there").confidence = 85/100 ∧
    (classify_request false false "hi there" ⟨"SUSPICIOUS", mkRat 5 10, "none", "crusoe"⟩
        ⟨"MALICIOUS", mkRat 9 10, "none", "claude"⟩).classification ≠ "SUSPICIOUS" :=
  ⟨(C10_stage0_verdict_invariants "hi there").2.2.1 (by decide),
   (C10_stage0_verdict_invariants "hi there").2.2.2 _ _⟩

/-- C8 counterexample: payload normalization is not idempotent as the
claim states it.  Lowercasing happens before percent-decoding, so the
payload "%41" normalizes to "A", whose own normalization is "a". -/
theorem C8_counterexample :
    _normalise_payload (_normalise_payload "%41") ≠ _normalise_payload "%41" := by decide

/-- C8 amended: normalization is idempotent for every payload that
contains no percent sign; in general a second pass can differ because
percent-decoding, which runs after lowercasing, may reintroduce
uppercase letters, whitespace or further percent escapes. -/
theorem C8_normalise_idem_no_pct (s : String) (hp : '%' ∉ s.data) :
    _normalise_payload (_normalise_payload s) = _normalise_payload s := by
  unfold _normalise_payload
  exact congrArg String.mk (normalisePayloadL_idem hp)

/-- Witness for C8: a concrete percent-free payload on which a second
normalization pass is the identity. -/
theorem C8_witness :
    ('%' ∉ "GET /api/users?id=1 HTTP/1.1".data) ∧
    _normalise_payload (_normalise_payload "GET /api/users?id=1 HTTP/1.1") =
      _normalise_payload "GET /api/users?id=1 HTTP/1.1" :=
  ⟨by decide, C8_normalise_idem_no_pct _ (by decide)⟩

/-- C9: the Scout store operation never inserts two techniques with
equal normalized payloads (within the batch, via the running dedup
set) and never inserts a candidate whose normalized payload or
case-insensitive name matches an already-stored technique. -/
theorem C9_store_dedup (rows : List (String × String)) (ts : List Candidate) :
    ((storeInserted rows ts).Pairwise
      (fun a b => _normalise_payload a.raw_payload ≠ _normalise_payload b.raw_payload)) ∧
    (∀ r ∈ storeInserted rows ts, ∀ q ∈ rows,
      _normalise_payload r.raw_payload ≠ _normalise_payload q.2) ∧
    (∀ r ∈ storeInserted rows ts, ∀ q ∈ rows,
      pyLowerStr r.technique_name ≠ pyLowerStr q.1) := by
  obtain ⟨hp, hn, hm⟩ := storeGo_invariant ts
    (rows.map (fun r => pyLowerStr r.1)) (rows.map (fun r => _normalise_payload r.2))
  refine ⟨hp, ?_, ?_⟩
  · intro r hr q hq he
    exact hn r hr (he ▸ List.mem_map_of_mem _ hq)
  · intro r hr q hq he
    exact hm r hr (he ▸ List.mem_map_of_mem _ hq)

/-- Witness for C9: two candidates with the same normalized payload
and a name clash against the store; only the first fresh candidate is
inserted, and the invariants hold on a concrete instance. -/
theorem C9_witness :
    ((storeInserted [("Seed", "GET /a")]
        [⟨"New one", "c1", "GET /B", "high"⟩, ⟨"Other", "c2", "get  /b", "low"⟩]).Pairwise
      (fun a b => _normalise_payload a.raw_payload ≠ _normalise_payload b.raw_payload)) ∧
    storeInserted [("Seed", "GET /a")]
        [⟨"New one", "c1", "GET /B", "high"⟩, ⟨"Other", "c2", "get  /b", "low"⟩] =
      [⟨"New one", "encoding_evasion", "GET /B", "high"⟩] :=
  ⟨(C9_store_dedup [("Seed", "GET /a")]
      [⟨"New one", "c1", "GET /B", "high"⟩, ⟨"Other", "c2", "get  /b", "low"⟩]).1,
   by decide⟩

/-- C7: target selection consumes the three tiers strictly in order
under the budget of 15: the never-tested tier is a prefix of the
output whenever it fits the budget, the output never exceeds 15
techniques, and the patched-and-blocked tier contributes at most 5
techniques (a prefix of the LIMIT 5 query result). -/
theorem C7_target_selection_tiers (t1 t2 t3 : List Threat) :
    (t1.length ≤ 15 → t1 <+: selectTargets t1 t2 t3) ∧
    (selectTargets t1 t2 t3).length ≤ 15 ∧
    ∃ c3, selectTargets t1 t2 t3 = t1.take 15 ++ t2.take (15 - t1.length) ++ c3 ∧
      c3.length ≤ 5 ∧ c3 <+: t3.take 5 := by
  have hform : selectTargets t1 t2 t3 =
      t1.take 15 ++ (t2.take (15 - t1.length) ++
        (t3.take 5).take (15 - t1.length - t2.length)) := by
    unfold selectTargets MAX_TECHNIQUES_PER_CYCLE
    rw [allocateBudget_cons, allocateBudget_cons, allocateBudget_cons]
    simp [allocateBudget]
  refine ⟨?_, ?_, ?_⟩
  · intro h15
    rw [hform, List.take_of_length_le h15]
    exact List.prefix_append _ _
  · rw [hform]
    simp only [List.length_append, List.length_take]
    omega
  · refine ⟨(t3.take 5).take (15 - t1.length - t2.length), ?_, ?_, List.take_prefix _ _⟩
    · rw [hform, List.append_assoc]
    · simp only [List.length_take]
      omega

/-- Witness for C7: with one never-tested technique the output starts
with that technique. -/
theorem C7_witness :
    ([⟨1, "a", "p1", "sqli", "high"⟩] : List Threat) <+:
      selectTargets [⟨1, "a", "p1", "sqli", "high"⟩]
        [⟨2, "b", "p2", "xss", "low"⟩] [⟨3, "c", "p3", "xxe", "low"⟩] :=
  (C7_target_selection_tiers _ _ _).1 (by decide)

end Veil
